import Mathlib

/-!
Shallow embedding of `game_db.py`, a minimal SQLite-backed helper for
two-player games, together with proofs about its specification.

The SQLite store is modelled as a pair of lists mirroring the two tables
created by `init_db`:

  * `sessions (id TEXT PRIMARY KEY, player_count INTEGER CHECK(0..2))`
  * `moves (session_id TEXT, player_id TEXT, choice TEXT,
            UNIQUE (session_id, player_id), FOREIGN KEY session_id)`

List order of `moves` models SQLite ROWID (insertion) order, which is the
order `get_results` reads back.  Each Python function that can raise a
`ValueError` is modelled with `Except GameError`; a raised error aborts the
transaction, so the error constructors carry no store and the caller's state
is unchanged.  Fresh UUID4 identifiers are injected as explicit arguments.
-/

/-- A row of the `sessions` table. -/
structure Session where
  id : String
  player_count : Nat
deriving DecidableEq, Repr

/-- A row of the `moves` table. -/
structure Move where
  session_id : String
  player_id : String
  choice : String
deriving DecidableEq, Repr

/-- The database state: both tables, `moves` in ROWID (insertion) order. -/
structure DB where
  sessions : List Session
  moves : List Move
deriving DecidableEq, Repr

/-- The state produced by `init_db`: both tables exist and are empty. -/
def DB.init : DB := ⟨[], []⟩

/-- The derived session phase computed by `get_state`. -/
inductive Phase where
  | waiting_for_opponent
  | waiting_for_moves
  | finished
deriving DecidableEq, Repr

/-- The closed error taxonomy behind the `ValueError`s raised by the code:
unknown session id (`get_state`), the two phase errors and the uniqueness
violation (`save_move`), and a primary-key collision on session insert
(`join_session`, where an `IntegrityError` would propagate uncaught). -/
inductive GameError where
  | NotFound (session_id : String)
  | InvalidState (msg : String)
  | DuplicateMove
  | IdCollision
deriving DecidableEq, Repr

/-- `SELECT * FROM moves WHERE session_id = ? ORDER BY ROWID`. -/
def movesOf (db : DB) (sid : String) : List Move :=
  db.moves.filter (fun m => m.session_id == sid)

/-- `SELECT COUNT(*) FROM moves WHERE session_id = ?` (used by `get_state`). -/
def moveCount (db : DB) (sid : String) : Nat :=
  (movesOf db sid).length

/-- The phase decision at the end of `get_state`:
`players < 2` gives `waiting_for_opponent`, `elif moves < players` gives
`waiting_for_moves`, `else finished`. -/
def phase_of (players moves : Nat) : Phase :=
  if players < 2 then Phase.waiting_for_opponent
  else if moves < players then Phase.waiting_for_moves
  else Phase.finished

/-- `get_state(session_id)`: look the session up, count its moves, decide the
phase; raise `Unknown session_id` when the lookup finds no row. -/
def get_state (db : DB) (sid : String) : Except GameError (Nat × Nat × Phase) :=
  match db.sessions.find? (fun s => s.id == sid) with
  | none => Except.error (GameError.NotFound sid)
  | some s =>
      Except.ok (s.player_count, moveCount db sid,
        phase_of s.player_count (moveCount db sid))

/-- `join_session()`: `SELECT id FROM sessions WHERE player_count = 1 LIMIT 1`;
if a row is found, `UPDATE sessions SET player_count = player_count + 1 WHERE
id = ?`, otherwise `INSERT INTO sessions (id, player_count) VALUES (?, 1)`.
Returns `(session_id, player_id)`.  The fresh UUID4 strings the Python code
generates are the two explicit arguments; an insert whose id collides with an
existing primary key raises an `IntegrityError`, modelled as `IdCollision`.
(The `UPDATE ... WHERE id = ?` touches every row with that id; the primary-key
constraint means at most one row can match in any state SQLite can hold.) -/
def join_session (db : DB) (fresh_sid fresh_pid : String) :
    Except GameError (DB × String × String) :=
  match db.sessions.find? (fun s => s.player_count == 1) with
  | some s =>
      Except.ok
        ({ db with
            sessions := db.sessions.map (fun t =>
              if t.id = s.id then { t with player_count := t.player_count + 1 }
              else t) },
          s.id, fresh_pid)
  | none =>
      if db.sessions.any (fun t => t.id == fresh_sid) then
        Except.error GameError.IdCollision
      else
        Except.ok ({ db with sessions := db.sessions ++ [⟨fresh_sid, 1⟩] },
          fresh_sid, fresh_pid)

/-- `save_move(session_id, player_id, choice)`: read the state via
`get_state` (propagating its unknown-session error), reject phase
`waiting_for_opponent`, reject phase `finished`, then `INSERT INTO moves`.
Given that the session exists, the only constraint the insert can violate is
`UNIQUE (session_id, player_id)`, caught and re-raised as the duplicate-move
`ValueError`. -/
def save_move (db : DB) (sid pid choice : String) : Except GameError DB :=
  match get_state db sid with
  | Except.error e => Except.error e
  | Except.ok (_, _, phase) =>
      if phase = Phase.waiting_for_opponent then
        Except.error
          (GameError.InvalidState "Cannot submit moves until two players have joined.")
      else if phase = Phase.finished then
        Except.error
          (GameError.InvalidState "Session already finished; no further moves accepted.")
      else if db.moves.any (fun m => m.session_id == sid && m.player_id == pid) then
        Except.error GameError.DuplicateMove
      else
        Except.ok { db with moves := db.moves ++ [⟨sid, pid, choice⟩] }

/-- `get_results(session_id)`: `SELECT player_id, choice FROM moves WHERE
session_id = ? ORDER BY ROWID`.  No existence check and no error path. -/
def get_results (db : DB) (sid : String) : List (String × String) :=
  (movesOf db sid).map (fun m => (m.player_id, m.choice))

/-- One engine invocation, with the injected fresh identifiers recorded. -/
inductive Op where
  | join (fresh_sid fresh_pid : String)
  | submitMove (sid pid choice : String)
  | getState (sid : String)
  | getResults (sid : String)
deriving DecidableEq, Repr

/-- Effect of one invocation on the store.  A raised error aborts the
transaction (the connection is closed without commit), leaving the store
unchanged; the two reads never write. -/
def apply (db : DB) : Op → DB
  | Op.join fresh_sid fresh_pid =>
      match join_session db fresh_sid fresh_pid with
      | Except.ok r => r.1
      | Except.error _ => db
  | Op.submitMove sid pid choice =>
      match save_move db sid pid choice with
      | Except.ok db2 => db2
      | Except.error _ => db
  | Op.getState _ => db
  | Op.getResults _ => db

/-- Run a sequence of engine invocations from a given store. -/
def run (db : DB) : List Op → DB
  | [] => db
  | op :: ops => run (apply db op) ops

/-- A store state reachable from the freshly initialised database by some
sequence of engine operations. -/
def Reachable (db : DB) : Prop :=
  ∃ ops : List Op, db = run DB.init ops

/-- Like `run`, but also log, for every successful `join`, the pair
`(session_id, player_id)` it returned: the participants each join attached,
and to which session. -/
def runLog (db : DB) (log : List (String × String)) :
    List Op → DB × List (String × String)
  | [] => (db, log)
  | Op.join fresh_sid fresh_pid :: ops =>
      match join_session db fresh_sid fresh_pid with
      | Except.ok (db2, rsid, rpid) => runLog db2 (log ++ [(rsid, rpid)]) ops
      | Except.error _ => runLog db log ops
  | op :: ops => runLog (apply db op) log ops

/-- The ids of all session rows (the primary-key column). -/
def sessionIds (db : DB) : List String :=
  db.sessions.map Session.id

/-- The composite keys of all move rows (the `UNIQUE` columns). -/
def moveKeys (db : DB) : List (String × String) :=
  db.moves.map (fun m => (m.session_id, m.player_id))

/-- A session row with this id exists. -/
def sessionExists (db : DB) (sid : String) : Prop :=
  ∃ s ∈ db.sessions, s.id = sid

/-- A move row with this composite key exists. -/
def moveExists (db : DB) (sid pid : String) : Prop :=
  ∃ m ∈ db.moves, m.session_id = sid ∧ m.player_id = pid

/-- `player_count` of the session row with the given id, if any. -/
def sessOf (db : DB) (sid : String) : Option Nat :=
  (db.sessions.find? (fun s => s.id == sid)).map Session.player_count

example : join_session DB.init "s1" "p1" =
    Except.ok (⟨[⟨"s1", 1⟩], []⟩, "s1", "p1") := rfl

example : get_state DB.init "s1" = Except.error (GameError.NotFound "s1") := rfl

/-! ### Helper lemmas -/

lemma phase_of_eq_waiting {p m : Nat} :
    phase_of p m = Phase.waiting_for_opponent ↔ p < 2 := by
  unfold phase_of; split_ifs <;> simp_all

lemma phase_of_eq_finished {p m : Nat} :
    phase_of p m = Phase.finished ↔ 2 ≤ p ∧ p ≤ m := by
  unfold phase_of; split_ifs <;> simp_all

lemma eq_of_mem_of_ids_nodup {l : List Session}
    (h : (l.map Session.id).Nodup) {s t : Session}
    (hs : s ∈ l) (ht : t ∈ l) (hid : s.id = t.id) : s = t :=
  List.inj_on_of_nodup_map h hs ht hid

/-- With no duplicate primary keys, looking a row up by its own id finds it. -/
lemma find?_id_of_nodup {l : List Session}
    (h : (l.map Session.id).Nodup) {s : Session} (hs : s ∈ l) :
    l.find? (fun t => t.id == s.id) = some s := by
  induction l with
  | nil => cases hs
  | cons a tl ih =>
      rcases List.mem_cons.mp hs with rfl | hmem
      · simp
      · have hne : ¬ (a.id == s.id) = true := by
          simp only [beq_iff_eq]
          intro hEq
          exact (List.nodup_cons.mp (by simpa using h)).1
            (hEq ▸ List.mem_map_of_mem Session.id hmem)
        rw [List.find?_cons_of_neg (p := fun t => t.id == s.id) tl hne]
        exact ih (List.nodup_cons.mp (by simpa using h)).2 hmem

lemma moveExists_iff_any {db : DB} {sid pid : String} :
    (db.moves.any (fun m => m.session_id == sid && m.player_id == pid)) = true
      ↔ moveExists db sid pid := by
  simp [List.any_eq_true, moveExists, beq_iff_eq, and_assoc]

lemma sessionExists_iff_any {db : DB} {sid : String} :
    (db.sessions.any (fun t => t.id == sid)) = true ↔ sessionExists db sid := by
  simp [List.any_eq_true, sessionExists, beq_iff_eq]

/-- Full characterisation of a successful `save_move`: the session row exists,
its count is at least 2, it has fewer moves than players, the composite key is
new, and the only change is the appended move row. -/
lemma save_move_ok {db : DB} {sid pid c : String} {db2 : DB}
    (h : save_move db sid pid c = Except.ok db2) :
    ∃ s, db.sessions.find? (fun t => t.id == sid) = some s ∧
      2 ≤ s.player_count ∧ moveCount db sid < s.player_count ∧
      ¬ moveExists db sid pid ∧
      db2 = { db with moves := db.moves ++ [⟨sid, pid, c⟩] } := by
  unfold save_move get_state at h
  rcases hf : db.sessions.find? (fun t => t.id == sid) with _ | s
  · rw [hf] at h; exact absurd h (by simp)
  · rw [hf] at h
    simp only at h
    by_cases h1 : phase_of s.player_count (moveCount db sid) = Phase.waiting_for_opponent
    · rw [if_pos h1] at h; exact absurd h (by simp)
    · rw [if_neg h1] at h
      by_cases h2 : phase_of s.player_count (moveCount db sid) = Phase.finished
      · rw [if_pos h2] at h; exact absurd h (by simp)
      · rw [if_neg h2] at h
        by_cases h3 :
            (db.moves.any (fun m => m.session_id == sid && m.player_id == pid)) = true
        · rw [if_pos h3] at h; exact absurd h (by simp)
        · rw [if_neg h3] at h
          refine ⟨s, hf, ?_, ?_, ?_, ?_⟩
          · have := (not_iff_not.mpr phase_of_eq_waiting).mp h1
            omega
          · have hw := (not_iff_not.mpr phase_of_eq_waiting).mp h1
            have hfin := (not_iff_not.mpr phase_of_eq_finished).mp h2
            omega
          · exact fun hx => h3 (moveExists_iff_any.mpr hx)
          · exact (Except.ok.inj h).symm

/-- A failing `save_move` returns an error, hence `apply` leaves the store
unchanged. -/
lemma save_move_error_frame {db : DB} {sid pid c : String} {e : GameError}
    (h : save_move db sid pid c = Except.error e) :
    apply db (Op.submitMove sid pid c) = db := by
  simp [apply, h]

/-! ### The store invariant maintained by the engine -/

/-- Invariant of every store state the engine can produce: primary keys are
unique, every session has one or two players, move keys are unique, every
move belongs to an existing full (two-player) session, and no session has
more than two moves. -/
structure StoreInv (db : DB) : Prop where
  ids_nodup : (sessionIds db).Nodup
  counts : ∀ s ∈ db.sessions, s.player_count = 1 ∨ s.player_count = 2
  keys_nodup : (moveKeys db).Nodup
  move_session : ∀ m ∈ db.moves,
    ∃ s ∈ db.sessions, s.id = m.session_id ∧ s.player_count = 2
  moves_le : ∀ sid, (movesOf db sid).length ≤ 2

lemma StoreInv_init : StoreInv DB.init :=
  ⟨by simp [sessionIds, DB.init], by simp [DB.init],
   by simp [moveKeys, DB.init], by simp [DB.init],
   fun sid => by simp [movesOf, DB.init]⟩

lemma movesOf_append {db : DB} {mv : Move} (x : String) :
    movesOf { db with moves := db.moves ++ [mv] } x =
      movesOf db x ++ if mv.session_id = x then [mv] else [] := by
  simp only [movesOf, List.filter_append]
  congr 1
  by_cases hx : mv.session_id = x <;> simp [hx]

lemma StoreInv_apply {db : DB} (h : StoreInv db) (op : Op) : StoreInv (apply db op) := by
  cases op with
  | getState sid => exact h
  | getResults sid => exact h
  | submitMove sid pid c =>
      cases hsm : save_move db sid pid c with
      | error e => simpa [apply, hsm] using h
      | ok db2 =>
          obtain ⟨s, hf, hpc, hmc, hnew, rfl⟩ := save_move_ok hsm
          have hs_mem : s ∈ db.sessions := List.mem_of_find?_eq_some hf
          have hs_id : s.id = sid := by
            simpa [beq_iff_eq] using List.find?_some hf
          have hpc2 : s.player_count = 2 := by
            rcases h.counts s hs_mem with h1 | h1 <;> omega
          simp only [apply, hsm]
          refine ⟨h.ids_nodup, h.counts, ?_, ?_, ?_⟩
          · have hkeys : moveKeys { db with moves := db.moves ++ [⟨sid, pid, c⟩] } =
                moveKeys db ++ [(sid, pid)] := by simp [moveKeys]
            rw [hkeys, List.nodup_append]
            refine ⟨h.keys_nodup, List.nodup_singleton _, ?_⟩
            intro k hk hk2
            rcases List.mem_map.mp hk with ⟨m, hm, rfl⟩
            have : (m.session_id, m.player_id) = (sid, pid) := by simpa using hk2
            exact hnew ⟨m, hm, by simpa using this⟩
          · intro m hm
            rcases List.mem_append.mp hm with hold | hnewm
            · exact h.move_session m hold
            · have : m = ⟨sid, pid, c⟩ := by simpa using hnewm
              exact ⟨s, hs_mem, by simp [this, hs_id], hpc2⟩
          · intro x
            rw [movesOf_append x]
            by_cases hx : (⟨sid, pid, c⟩ : Move).session_id = x
            · have hxs : x = sid := by simpa using hx.symm
              have : (movesOf db x).length < 2 := by
                have : moveCount db sid < 2 := by omega
                simpa [moveCount, hxs] using this
              simp only [if_pos hx, List.length_append, List.length_singleton]
              omega
            · simpa [if_neg hx] using h.moves_le x
  | join fsid fpid =>
      rcases hf : db.sessions.find? (fun s => s.player_count == 1) with _ | s
      · by_cases hcoll : (db.sessions.any (fun t => t.id == fsid)) = true
        · simpa [apply, join_session, hf, hcoll] using h
        · have hfresh : ∀ t ∈ db.sessions, t.id ≠ fsid := by
            intro t ht hEq
            exact hcoll (List.any_eq_true.mpr ⟨t, ht, by simp [beq_iff_eq, hEq]⟩)
          simp only [apply, join_session, hf, hcoll, Bool.false_eq_true,
            if_false, if_neg]
          refine ⟨?_, ?_, h.keys_nodup, ?_, ?_⟩
          · have : sessionIds { db with sessions := db.sessions ++ [⟨fsid, 1⟩] } =
                sessionIds db ++ [fsid] := by simp [sessionIds]
            rw [this, List.nodup_append]
            refine ⟨h.ids_nodup, List.nodup_singleton _, ?_⟩
            intro x hx hx2
            rcases List.mem_map.mp hx with ⟨t, ht, rfl⟩
            exact hfresh t ht (by simpa using hx2)
          · intro t ht
            rcases List.mem_append.mp ht with hold | hnewt
            · exact h.counts t hold
            · left; have : t = ⟨fsid, 1⟩ := by simpa using hnewt
              simp [this]
          · intro m hm
            obtain ⟨t, ht, h1, h2⟩ := h.move_session m hm
            exact ⟨t, List.mem_append_left _ ht, h1, h2⟩
          · intro x; exact h.moves_le x
      · have hs_mem : s ∈ db.sessions := List.mem_of_find?_eq_some hf
        have hs1 : s.player_count = 1 := by
          simpa [beq_iff_eq] using List.find?_some hf
        have hid : ∀ t : Session,
            ((if t.id = s.id then { t with player_count := t.player_count + 1 }
              else t) : Session).id = t.id := by
          intro t; split <;> rfl
        simp only [apply, join_session, hf]
        refine ⟨?_, ?_, h.keys_nodup, ?_, ?_⟩
        · have : sessionIds { db with
              sessions := db.sessions.map (fun t =>
                if t.id = s.id then { t with player_count := t.player_count + 1 }
                else t) } = sessionIds db := by
            simp only [sessionIds, List.map_map]
            exact List.map_congr_left (fun t _ => hid t)
          rw [this]; exact h.ids_nodup
        · intro t2 ht2
          rcases List.mem_map.mp ht2 with ⟨t, ht, rfl⟩
          by_cases hEq : t.id = s.id
          · have : t = s := eq_of_mem_of_ids_nodup h.ids_nodup ht hs_mem hEq
            subst this
            right; simp [hEq, hs1]
          · rw [if_neg hEq]; exact h.counts t ht
        · intro m hm
          obtain ⟨t, ht, h1, h2⟩ := h.move_session m hm
          have hne : t.id ≠ s.id := by
            intro hEq
            have hts : t = s := eq_of_mem_of_ids_nodup h.ids_nodup ht hs_mem hEq
            rw [hts] at h2; omega
          refine ⟨t, ?_, h1, h2⟩
          have : (if t.id = s.id then
              ({ t with player_count := t.player_count + 1 } : Session)
              else t) = t := if_neg hne
          exact this ▸ List.mem_map_of_mem _ ht
        · intro x; exact h.moves_le x

lemma StoreInv_run {db : DB} (h : StoreInv db) (ops : List Op) : StoreInv (run db ops) := by
  induction ops generalizing db with
  | nil => exact h
  | cons op ops ih => exact ih (StoreInv_apply h op)

lemma StoreInv_reachable {db : DB} (h : Reachable db) : StoreInv db := by
  obtain ⟨ops, rfl⟩ := h
  exact StoreInv_run StoreInv_init ops

/-- Keys being unique, the player ids within any one session are unique. -/
lemma filter_pids_nodup (l : List Move)
    (h : (l.map (fun m => (m.session_id, m.player_id))).Nodup) (sid : String) :
    ((l.filter (fun m => m.session_id == sid)).map Move.player_id).Nodup := by
  induction l with
  | nil => simp
  | cons a tl ih =>
      rw [List.map_cons] at h
      have h1 := (List.nodup_cons.mp h).1
      have h2 := (List.nodup_cons.mp h).2
      by_cases ha : a.session_id = sid
      · have hstep : List.filter (fun m => m.session_id == sid) (a :: tl) =
            a :: List.filter (fun m => m.session_id == sid) tl := by
          simp [List.filter_cons, ha]
        rw [hstep, List.map_cons, List.nodup_cons]
        refine ⟨?_, ih h2⟩
        intro hmem
        rcases List.mem_map.mp hmem with ⟨b, hb, hpid⟩
        have hbmem := List.mem_of_mem_filter hb
        have hbsid : b.session_id = sid := by
          simpa [beq_iff_eq] using List.of_mem_filter hb
        apply h1
        have hkey : (b.session_id, b.player_id) = (a.session_id, a.player_id) := by
          rw [hbsid, ha, hpid]
        exact hkey ▸ List.mem_map_of_mem _ hbmem
      · have hstep : List.filter (fun m => m.session_id == sid) (a :: tl) =
            List.filter (fun m => m.session_id == sid) tl := by
          simp [List.filter_cons, ha]
        rw [hstep]
        exact ih h2

/-- No single engine invocation removes a session row or lowers its
`player_count`. -/
lemma apply_mono (db : DB) (op : Op) {s : Session} (hs : s ∈ db.sessions) :
    ∃ t ∈ (apply db op).sessions, t.id = s.id ∧ s.player_count ≤ t.player_count := by
  cases op with
  | getState _ => exact ⟨s, hs, rfl, le_refl _⟩
  | getResults _ => exact ⟨s, hs, rfl, le_refl _⟩
  | submitMove sid pid c =>
      cases hsm : save_move db sid pid c with
      | error e => exact ⟨s, by simpa [apply, hsm] using hs, rfl, le_refl _⟩
      | ok db2 =>
          obtain ⟨_, _, _, _, _, rfl⟩ := save_move_ok hsm
          exact ⟨s, by simpa [apply, hsm] using hs, rfl, le_refl _⟩
  | join fsid fpid =>
      rcases hf : db.sessions.find? (fun t => t.player_count == 1) with _ | s0
      · by_cases hcoll : (db.sessions.any (fun t => t.id == fsid)) = true
        · exact ⟨s, by simpa [apply, join_session, hf, hcoll] using hs, rfl, le_refl _⟩
        · refine ⟨s, ?_, rfl, le_refl _⟩
          simp only [apply, join_session, hf, hcoll, Bool.false_eq_true, if_false]
          exact List.mem_append_left _ hs
      · refine ⟨if s.id = s0.id then { s with player_count := s.player_count + 1 }
          else s, ?_, ?_, ?_⟩
        · simp only [apply, join_session, hf]
          exact List.mem_map_of_mem _ hs
        · split <;> rfl
        · split
          · exact Nat.le_succ _
          · exact le_refl _

/-! ### Claim theorems -/

/-- Claim C5: in every store state reachable by engine operations, every session
satisfies `0 ≤ player_count ≤ 2` (the lower bound is inherent to `Nat`), and
no single further operation removes the session or decreases its count, so
the count is monotonically non-decreasing over the session's lifetime. -/
theorem participant_count_bounded_and_monotone (db : DB) (hdb : Reachable db)
    (s : Session) (hs : s ∈ db.sessions) (op : Op) :
    s.player_count ≤ 2 ∧
      ∃ t ∈ (apply db op).sessions, t.id = s.id ∧ s.player_count ≤ t.player_count := by
  refine ⟨?_, apply_mono db op hs⟩
  rcases (StoreInv_reachable hdb).counts s hs with h | h <;> omega

/-- Witness for C5 at the store reached by a single `join`. -/
theorem participant_count_bounded_and_monotone_witness :
    run DB.init [Op.join "s1" "p1"] = (⟨[⟨"s1", 1⟩], []⟩ : DB) ∧
      ((⟨"s1", 1⟩ : Session).player_count ≤ 2 ∧
        ∃ t ∈ (apply (⟨[⟨"s1", 1⟩], []⟩ : DB) (Op.join "s2" "p2")).sessions,
          t.id = "s1" ∧ (⟨"s1", 1⟩ : Session).player_count ≤ t.player_count) :=
  ⟨rfl,
    participant_count_bounded_and_monotone ⟨[⟨"s1", 1⟩], []⟩
      ⟨[Op.join "s1" "p1"], rfl⟩ ⟨"s1", 1⟩ (by simp) (Op.join "s2" "p2")⟩

/-- Claim C6: in every reachable store state, the number of distinct player ids
among a session's moves never exceeds the session's `player_count`. -/
theorem distinct_pids_le_player_count (db : DB) (hdb : Reachable db)
    (s : Session) (hs : s ∈ db.sessions) :
    (((movesOf db s.id).map Move.player_id).dedup).length ≤ s.player_count := by
  have hInv := StoreInv_reachable hdb
  have hnodup : ((movesOf db s.id).map Move.player_id).Nodup :=
    filter_pids_nodup db.moves (by simpa [moveKeys] using hInv.keys_nodup) s.id
  rw [List.dedup_eq_self.mpr hnodup, List.length_map]
  rcases hempty : movesOf db s.id with _ | ⟨m, rest⟩
  · simp
  · have hm_in : m ∈ movesOf db s.id := by rw [hempty]; exact List.mem_cons_self _ _
    have hm_mem : m ∈ db.moves := List.mem_of_mem_filter hm_in
    have hm_sid : m.session_id = s.id := by
      simpa [beq_iff_eq] using List.of_mem_filter hm_in
    obtain ⟨t, ht, h1, h2⟩ := hInv.move_session m hm_mem
    have hts : t = s :=
      eq_of_mem_of_ids_nodup hInv.ids_nodup ht hs (by rw [h1, hm_sid])
    have hle := hInv.moves_le s.id
    rw [hempty] at hle
    subst hts
    rw [h2]
    exact hle

/-- Witness for C6 at a reachable two-player session with one move. -/
theorem distinct_pids_le_player_count_witness :
    (⟨"s1", 2⟩ : Session) ∈
        (⟨[⟨"s1", 2⟩], [⟨"s1", "p1", "rock"⟩]⟩ : DB).sessions ∧
    (((movesOf ⟨[⟨"s1", 2⟩], [⟨"s1", "p1", "rock"⟩]⟩ "s1").map
        Move.player_id).dedup).length ≤ 2 :=
  ⟨by simp,
    distinct_pids_le_player_count ⟨[⟨"s1", 2⟩], [⟨"s1", "p1", "rock"⟩]⟩
      ⟨[Op.join "s1" "p1", Op.join "s2" "p2", Op.submitMove "s1" "p1" "rock"],
        rfl⟩
      ⟨"s1", 2⟩ (by simp)⟩

/-- Trace refuting the "issued by join" part of C7: two participants join the
same session, then a move is submitted with a player id no join ever issued. -/
def cexOps : List Op :=
  [Op.join "s1" "p1", Op.join "sX" "p2", Op.submitMove "s1" "q" "rock"]

/-- Claim C7 counterexample: after `cexOps`, the store holds a move whose
`(session_id, player_id)` pair was never returned by any join — `save_move`
accepts any player token once the session has two players. -/
theorem move_pid_not_issued_by_join :
    (runLog DB.init [] cexOps).1.moves = [⟨"s1", "q", "rock"⟩] ∧
    (runLog DB.init [] cexOps).2 = [("s1", "p1"), ("s1", "p2")] ∧
    ("s1", "q") ∉ [("s1", "p1"), ("s1", "p2")] :=
  ⟨rfl, rfl, by decide⟩

/-- Claim C7 (amended): in every reachable store state a session has zero, one or
two moves, at most one per distinct participant; but the participant id on a
move need not have been issued by a join that attached it to that session. -/
theorem session_moves_at_most_two (db : DB) (hdb : Reachable db)
    (s : Session) (_hs : s ∈ db.sessions) :
    (movesOf db s.id).length ≤ 2 ∧
      ((movesOf db s.id).map Move.player_id).Nodup := by
  have hInv := StoreInv_reachable hdb
  exact ⟨hInv.moves_le s.id,
    filter_pids_nodup db.moves (by simpa [moveKeys] using hInv.keys_nodup) s.id⟩

/-- Witness for the amended C7 at a reachable finished session. -/
theorem session_moves_at_most_two_witness :
    (⟨"s1", 2⟩ : Session) ∈
        (⟨[⟨"s1", 2⟩],
          [⟨"s1", "p1", "rock"⟩, ⟨"s1", "p2", "paper"⟩]⟩ : DB).sessions ∧
    ((movesOf ⟨[⟨"s1", 2⟩], [⟨"s1", "p1", "rock"⟩, ⟨"s1", "p2", "paper"⟩]⟩
        "s1").length ≤ 2 ∧
      ((movesOf ⟨[⟨"s1", 2⟩], [⟨"s1", "p1", "rock"⟩, ⟨"s1", "p2", "paper"⟩]⟩
          "s1").map Move.player_id).Nodup) :=
  ⟨by simp,
    session_moves_at_most_two
      ⟨[⟨"s1", 2⟩], [⟨"s1", "p1", "rock"⟩, ⟨"s1", "p2", "paper"⟩]⟩
      ⟨[Op.join "s1" "p1", Op.join "s2" "p2", Op.submitMove "s1" "p1" "rock",
          Op.submitMove "s1" "p2" "paper"], rfl⟩
      ⟨"s1", 2⟩ (by simp)⟩

/-- Claim C9: `get_state` and `get_results` leave the store entirely unchanged, and
calling either twice with no intervening write returns the same result. -/
theorem reads_are_pure (db : DB) (sid : String) :
    apply db (Op.getState sid) = db ∧
    apply db (Op.getResults sid) = db ∧
    get_state (apply db (Op.getState sid)) sid = get_state db sid ∧
    get_results (apply db (Op.getResults sid)) sid = get_results db sid :=
  ⟨rfl, rfl, rfl, rfl⟩

/-- Claim C10: every session row the engine produces has `player_count` exactly 1
or 2; the count 0 allowed by the schema CHECK never occurs in a store state
produced purely by engine operations. -/
theorem engine_counts_one_or_two (db : DB) (hdb : Reachable db)
    (s : Session) (hs : s ∈ db.sessions) :
    s.player_count = 1 ∨ s.player_count = 2 :=
  (StoreInv_reachable hdb).counts s hs

/-- Witness for C10 at the store reached by a single `join`. -/
theorem engine_counts_one_or_two_witness :
    (⟨"s1", 1⟩ : Session) ∈ (⟨[⟨"s1", 1⟩], []⟩ : DB).sessions ∧
      ((⟨"s1", 1⟩ : Session).player_count = 1 ∨
        (⟨"s1", 1⟩ : Session).player_count = 2) :=
  ⟨by simp,
    engine_counts_one_or_two ⟨[⟨"s1", 1⟩], []⟩ ⟨[Op.join "s1" "p1"], rfl⟩
      ⟨"s1", 1⟩ (by simp)⟩

/-- Claim C3 counterexample: on the freshly initialised store the session id `s1`
does not exist, yet `get_results` does not fail — it has no failure outcome
at all and returns the empty list. -/
theorem get_results_unknown_returns_empty :
    ¬ sessionExists DB.init "s1" ∧ get_results DB.init "s1" = [] :=
  ⟨by simp [sessionExists, DB.init], rfl⟩

/-- Claim C3 (amended): `get_results` returns all moves of the session in insertion
order — empty on the initial store, extended at the back by each successful
`save_move` for that session and untouched for every other session — and it
never fails: for an unknown session id it simply returns the empty list. -/
theorem get_results_insertion_order :
    (∀ sid, get_results DB.init sid = []) ∧
    ∀ db sid pid c db2, save_move db sid pid c = Except.ok db2 →
      get_results db2 sid = get_results db sid ++ [(pid, c)] ∧
      ∀ sid2, sid2 ≠ sid → get_results db2 sid2 = get_results db sid2 := by
  refine ⟨fun sid => rfl, ?_⟩
  intro db sid pid c db2 h
  obtain ⟨s, hf, hpc, hmc, hnew, rfl⟩ := save_move_ok h
  constructor
  · rw [get_results, movesOf_append, get_results]
    simp
  · intro sid2 hne
    rw [get_results, movesOf_append, get_results]
    simp [Ne.symm hne]

/-- Witness for the amended C3 at a two-player session receiving its first
move. -/
theorem get_results_insertion_order_witness :
    save_move ⟨[⟨"s1", 2⟩], []⟩ "s1" "p1" "rock" =
      Except.ok ⟨[⟨"s1", 2⟩], [⟨"s1", "p1", "rock"⟩]⟩ ∧
    get_results ⟨[⟨"s1", 2⟩], [⟨"s1", "p1", "rock"⟩]⟩ "s1" =
      get_results ⟨[⟨"s1", 2⟩], []⟩ "s1" ++ [("p1", "rock")] :=
  ⟨rfl,
    (get_results_insertion_order.2 ⟨[⟨"s1", 2⟩], []⟩ "s1" "p1" "rock"
      ⟨[⟨"s1", 2⟩], [⟨"s1", "p1", "rock"⟩]⟩ rfl).1⟩

/-- The phase function exactly as §3 of the specification words it:
`participant_count < 2` gives `waiting_for_opponent`;
`participant_count == 2 and move_count < participant_count` gives
`waiting_for_moves`; otherwise `finished`.  Stated separately from
`phase_of` (the code's decision) so the two can be compared. -/
def specPhase (participant_count move_count : Nat) : Phase :=
  if participant_count < 2 then Phase.waiting_for_opponent
  else if participant_count = 2 ∧ move_count < participant_count then
    Phase.waiting_for_moves
  else Phase.finished

/-- Under the schema CHECK (`player_count ≤ 2`) the code's phase decision
agrees with the specification's. -/
lemma phase_of_eq_specPhase {p m : Nat} (h : p ≤ 2) :
    phase_of p m = specPhase p m := by
  by_cases h1 : p < 2
  · simp [phase_of, specPhase, h1]
  · have hp2 : p = 2 := by omega
    subst hp2
    by_cases h2 : m < 2
    · simp [phase_of, specPhase, h2]
    · simp [phase_of, specPhase, h2]

/-- Claim C4: `get_state` fails with `NotFound` exactly when the session id is
unknown, and otherwise returns the session's player count, its move count,
and the phase computed as the specification's pure function of the two
counts — given the store's schema constraints (unique primary keys and
`player_count ≤ 2`). -/
theorem get_state_counts_and_phase (db : DB) (sid : String)
    (hnodup : (sessionIds db).Nodup)
    (hbound : ∀ s ∈ db.sessions, s.player_count ≤ 2) :
    (get_state db sid = Except.error (GameError.NotFound sid) ↔
      ¬ sessionExists db sid) ∧
    ∀ s ∈ db.sessions, s.id = sid →
      get_state db sid =
        Except.ok (s.player_count, moveCount db sid,
          specPhase s.player_count (moveCount db sid)) := by
  constructor
  · constructor
    · intro h hex
      obtain ⟨s, hsmem, hsid⟩ := hex
      unfold get_state at h
      rcases hf : db.sessions.find? (fun t => t.id == sid) with _ | s2
      · exact List.find?_eq_none.mp hf s hsmem (by simp [beq_iff_eq, hsid])
      · rw [hf] at h
        exact absurd h (by simp)
    · intro hnotex
      rcases hf : db.sessions.find? (fun t => t.id == sid) with _ | s2
      · unfold get_state
        rw [hf]
      · exact absurd
          ⟨s2, List.mem_of_find?_eq_some hf,
            by simpa [beq_iff_eq] using List.find?_some hf⟩ hnotex
  · intro s hsmem hsid
    subst hsid
    have hf := find?_id_of_nodup hnodup hsmem
    have hval : get_state db s.id =
        Except.ok (s.player_count, moveCount db s.id,
          phase_of s.player_count (moveCount db s.id)) := by
      unfold get_state
      rw [hf]
    rw [hval, phase_of_eq_specPhase (hbound s hsmem)]

/-- Witness for C4 at a one-session store. -/
theorem get_state_counts_and_phase_witness :
    get_state ⟨[⟨"s1", 2⟩], []⟩ "s1" = Except.ok (2, 0, specPhase 2 0) :=
  (get_state_counts_and_phase ⟨[⟨"s1", 2⟩], []⟩ "s1"
      (by simp [sessionIds]) (by decide)).2 ⟨"s1", 2⟩ (by simp) rfl

/-- With no duplicate primary keys, `sessOf` at a member row's own id
returns that row's count. -/
lemma sessOf_self {db : DB} (hnodup : (sessionIds db).Nodup)
    {t : Session} (ht : t ∈ db.sessions) :
    sessOf db t.id = some t.player_count := by
  unfold sessOf
  rw [find?_id_of_nodup hnodup ht]
  rfl

/-- Effect of the `UPDATE ... WHERE id = ?` of `join_session` on `sessOf`. -/
lemma sessOf_update {db : DB} {s : Session}
    (hnodup : (sessionIds db).Nodup) (hs : s ∈ db.sessions) (x : String) :
    sessOf { db with sessions := db.sessions.map (fun t =>
        if t.id = s.id then { t with player_count := t.player_count + 1 }
        else t) } x =
      if x = s.id then some (s.player_count + 1) else sessOf db x := by
  unfold sessOf
  have hpred : ((fun t : Session => t.id == x) ∘ (fun t =>
      if t.id = s.id then { t with player_count := t.player_count + 1 }
      else t)) = (fun t : Session => t.id == x) := by
    funext t
    simp only [Function.comp]
    split <;> rfl
  rw [show ({ db with sessions := db.sessions.map (fun t =>
        if t.id = s.id then { t with player_count := t.player_count + 1 }
        else t) } : DB).sessions = db.sessions.map (fun t =>
        if t.id = s.id then { t with player_count := t.player_count + 1 }
        else t) from rfl,
    List.find?_map, hpred]
  by_cases hx : x = s.id
  · subst hx
    rw [find?_id_of_nodup hnodup hs]
    simp
  · rcases hfind : db.sessions.find? (fun t => t.id == x) with _ | t
    · simp [hfind, hx]
    · have ht_id : t.id = x := by simpa [beq_iff_eq] using List.find?_some hfind
      have hts : ¬ t.id = s.id := by rw [ht_id]; exact hx
      simp [hfind, hx, Function.comp, hts]

/-- Effect of the `INSERT INTO sessions` of `join_session` on `sessOf`. -/
lemma sessOf_insert {db : DB} {fsid : String}
    (hfresh : fsid ∉ sessionIds db) (x : String) :
    sessOf { db with sessions := db.sessions ++ [⟨fsid, 1⟩] } x =
      if x = fsid then some 1 else sessOf db x := by
  unfold sessOf
  rw [show ({ db with sessions := db.sessions ++ [⟨fsid, 1⟩] } : DB).sessions =
      db.sessions ++ [⟨fsid, 1⟩] from rfl, List.find?_append]
  by_cases hx : x = fsid
  · subst hx
    have hnone : db.sessions.find? (fun t => t.id == x) = none := by
      rw [List.find?_eq_none]
      intro t ht hEq
      exact hfresh (by
        have : t.id = x := by simpa [beq_iff_eq] using hEq
        exact this ▸ List.mem_map_of_mem Session.id ht)
    rw [hnone]
    simp
  · have hnone2 : ([(⟨fsid, 1⟩ : Session)].find? (fun t => t.id == x)) = none := by
      simp [beq_iff_eq]
      exact fun h => absurd h.symm hx
    rw [hnone2]
    simp [hx]

/-- Claim C1: with unique primary keys and a fresh generated id, `join` either
finds a session with one player, raises its count to 2 and returns its id
with the fresh player id — inserting or updating no other row — or, when no
such session exists, inserts exactly one new session with count 1 and returns
its id with the fresh player id. -/
theorem join_session_pairs_or_creates (db : DB) (fsid fpid : String)
    (hnodup : (sessionIds db).Nodup) (hfresh : fsid ∉ sessionIds db) :
    ∃ db2 rsid, join_session db fsid fpid = Except.ok (db2, rsid, fpid) ∧
      db2.moves = db.moves ∧
      ((∃ s ∈ db.sessions, s.player_count = 1 ∧ rsid = s.id ∧
          db2.sessions.length = db.sessions.length ∧
          sessOf db2 rsid = some 2 ∧
          ∀ t ∈ db.sessions, t.id ≠ rsid →
            sessOf db2 t.id = some t.player_count) ∨
        ((∀ s ∈ db.sessions, s.player_count ≠ 1) ∧ rsid = fsid ∧
          db2.sessions.length = db.sessions.length + 1 ∧
          sessOf db2 fsid = some 1 ∧
          ∀ t ∈ db.sessions, sessOf db2 t.id = some t.player_count)) := by
  rcases hf : db.sessions.find? (fun t => t.player_count == 1) with _ | s
  · have hfresh2 : (db.sessions.any (fun t => t.id == fsid)) = false := by
      rw [List.any_eq_false]
      intro t ht hEq
      exact hfresh (by
        have : t.id = fsid := by simpa [beq_iff_eq] using hEq
        exact this ▸ List.mem_map_of_mem Session.id ht)
    refine ⟨{ db with sessions := db.sessions ++ [⟨fsid, 1⟩] }, fsid, ?_, rfl,
      Or.inr ⟨?_, rfl, by simp, ?_, ?_⟩⟩
    · unfold join_session
      rw [hf, hfresh2]
      rfl
    · intro t ht
      have := List.find?_eq_none.mp hf t ht
      simpa [beq_iff_eq] using this
    · rw [sessOf_insert hfresh]
      simp
    · intro t ht
      rw [sessOf_insert hfresh]
      have htne : t.id ≠ fsid := by
        intro hEq
        exact hfresh (hEq ▸ List.mem_map_of_mem Session.id ht)
      rw [if_neg htne]
      exact sessOf_self hnodup ht
  · have hs_mem : s ∈ db.sessions := List.mem_of_find?_eq_some hf
    have hs1 : s.player_count = 1 := by
      simpa [beq_iff_eq] using List.find?_some hf
    refine ⟨{ db with sessions := db.sessions.map (fun t =>
        if t.id = s.id then { t with player_count := t.player_count + 1 }
        else t) }, s.id, ?_, rfl,
      Or.inl ⟨s, hs_mem, hs1, rfl, by simp, ?_, ?_⟩⟩
    · unfold join_session
      rw [hf]
    · rw [sessOf_update hnodup hs_mem, if_pos rfl, hs1]
    · intro t ht htne
      rw [sessOf_update hnodup hs_mem, if_neg htne]
      exact sessOf_self hnodup ht

/-- Witness for C1: joining the empty store creates one session with one
player. -/
theorem join_session_pairs_or_creates_witness :
    ∃ db2 rsid, join_session DB.init "s1" "p1" = Except.ok (db2, rsid, "p1") ∧
      db2.moves = DB.init.moves ∧
      ((∃ s ∈ DB.init.sessions, s.player_count = 1 ∧ rsid = s.id ∧
          db2.sessions.length = DB.init.sessions.length ∧
          sessOf db2 rsid = some 2 ∧
          ∀ t ∈ DB.init.sessions, t.id ≠ rsid →
            sessOf db2 t.id = some t.player_count) ∨
        ((∀ s ∈ DB.init.sessions, s.player_count ≠ 1) ∧ rsid = "s1" ∧
          db2.sessions.length = DB.init.sessions.length + 1 ∧
          sessOf db2 "s1" = some 1 ∧
          ∀ t ∈ DB.init.sessions, sessOf db2 t.id = some t.player_count)) :=
  join_session_pairs_or_creates DB.init "s1" "p1" (by simp [sessionIds, DB.init])
    (by simp [sessionIds, DB.init])

lemma sessOf_of_find? {db : DB} {sid : String} {s : Session}
    (hf : db.sessions.find? (fun t => t.id == sid) = some s) :
    sessOf db sid = some s.player_count := by
  simp [sessOf, hf]

/-- Claim C2: `save_move` checks its preconditions in order and raises each error
exactly when its condition holds — `NotFound` iff the session id is unknown,
the needs-second-participant `InvalidState` iff the phase is
`waiting_for_opponent`, the already-finished `InvalidState` iff the phase is
`finished`, `DuplicateMove` iff the phase admits moves but the
`(session_id, player_id)` key already exists — and succeeds otherwise, in
which case exactly the one move row is appended and the sessions table is
untouched; on any failure the store is unchanged. -/
theorem submit_move_preconditions (db : DB) (sid pid c : String) :
    (save_move db sid pid c = Except.error (GameError.NotFound sid) ↔
      ¬ sessionExists db sid) ∧
    (save_move db sid pid c =
        Except.error (GameError.InvalidState
          "Cannot submit moves until two players have joined.") ↔
      ∃ p, sessOf db sid = some p ∧
        phase_of p (moveCount db sid) = Phase.waiting_for_opponent) ∧
    (save_move db sid pid c =
        Except.error (GameError.InvalidState
          "Session already finished; no further moves accepted.") ↔
      ∃ p, sessOf db sid = some p ∧
        phase_of p (moveCount db sid) = Phase.finished) ∧
    (save_move db sid pid c = Except.error GameError.DuplicateMove ↔
      (∃ p, sessOf db sid = some p ∧
        phase_of p (moveCount db sid) = Phase.waiting_for_moves) ∧
        moveExists db sid pid) ∧
    (save_move db sid pid c =
        Except.ok { db with moves := db.moves ++ [⟨sid, pid, c⟩] } ↔
      (∃ p, sessOf db sid = some p ∧
        phase_of p (moveCount db sid) = Phase.waiting_for_moves) ∧
        ¬ moveExists db sid pid) ∧
    (∀ e, save_move db sid pid c = Except.error e →
      apply db (Op.submitMove sid pid c) = db) := by
  have frame : ∀ e, save_move db sid pid c = Except.error e →
      apply db (Op.submitMove sid pid c) = db := by
    intro e he
    simp [apply, he]
  have hmsg : ("Cannot submit moves until two players have joined." : String) ≠
      "Session already finished; no further moves accepted." := by decide
  rcases hf : db.sessions.find? (fun t => t.id == sid) with _ | s
  · have hsm : save_move db sid pid c = Except.error (GameError.NotFound sid) := by
      unfold save_move get_state
      rw [hf]
    have hnone : sessOf db sid = none := by simp [sessOf, hf]
    have hnotex : ¬ sessionExists db sid := by
      rintro ⟨t, ht, hid⟩
      exact List.find?_eq_none.mp hf t ht (by simp [beq_iff_eq, hid])
    refine ⟨⟨fun _ => hnotex, fun _ => hsm⟩, ?_, ?_, ?_, ?_, frame⟩
    · rw [hsm]
      constructor
      · intro h
        exact absurd h (by simp)
      · rintro ⟨p, hp, _⟩
        rw [hnone] at hp
        exact absurd hp (by simp)
    · rw [hsm]
      constructor
      · intro h
        exact absurd h (by simp)
      · rintro ⟨p, hp, _⟩
        rw [hnone] at hp
        exact absurd hp (by simp)
    · rw [hsm]
      constructor
      · intro h
        exact absurd h (by simp)
      · rintro ⟨⟨p, hp, _⟩, _⟩
        rw [hnone] at hp
        exact absurd hp (by simp)
    · rw [hsm]
      constructor
      · intro h
        exact absurd h (by simp)
      · rintro ⟨⟨p, hp, _⟩, _⟩
        rw [hnone] at hp
        exact absurd hp (by simp)
  · have hs_id : s.id = sid := by simpa [beq_iff_eq] using List.find?_some hf
    have hsome : sessOf db sid = some s.player_count := sessOf_of_find? hf
    have hex : sessionExists db sid := ⟨s, List.mem_of_find?_eq_some hf, hs_id⟩
    have hponly : ∀ p, sessOf db sid = some p → p = s.player_count := by
      intro p hp
      rw [hsome] at hp
      exact (Option.some.inj hp).symm
    have hsm : save_move db sid pid c =
        (if phase_of s.player_count (moveCount db sid) =
            Phase.waiting_for_opponent then
          Except.error (GameError.InvalidState
            "Cannot submit moves until two players have joined.")
        else if phase_of s.player_count (moveCount db sid) = Phase.finished then
          Except.error (GameError.InvalidState
            "Session already finished; no further moves accepted.")
        else if db.moves.any (fun m => m.session_id == sid && m.player_id == pid) then
          Except.error GameError.DuplicateMove
        else
          Except.ok { db with moves := db.moves ++ [⟨sid, pid, c⟩] }) := by
      unfold save_move get_state
      rw [hf]
    cases hph : phase_of s.player_count (moveCount db sid) with
    | waiting_for_opponent =>
        rw [hph] at hsm
        simp only [if_pos rfl] at hsm
        refine ⟨?_, ⟨fun _ => ⟨s.player_count, hsome, hph⟩, fun _ => hsm⟩,
          ?_, ?_, ?_, frame⟩
        · rw [hsm]
          constructor
          · intro h
            exact absurd h (by simp)
          · intro h
            exact absurd hex h
        · rw [hsm]
          constructor
          · intro h
            have := Except.error.inj h
            exact absurd (GameError.InvalidState.inj this) hmsg
          · rintro ⟨p, hp, hc⟩
            rw [hponly p hp] at hc
            rw [hph] at hc
            exact absurd hc (by simp)
        · rw [hsm]
          constructor
          · intro h
            exact absurd h (by simp)
          · rintro ⟨⟨p, hp, hc⟩, _⟩
            rw [hponly p hp] at hc
            rw [hph] at hc
            exact absurd hc (by simp)
        · rw [hsm]
          constructor
          · intro h
            exact absurd h (by simp)
          · rintro ⟨⟨p, hp, hc⟩, _⟩
            rw [hponly p hp] at hc
            rw [hph] at hc
            exact absurd hc (by simp)
    | finished =>
        rw [hph] at hsm
        simp only [if_neg (by simp : ¬ (Phase.finished = Phase.waiting_for_opponent)),
          if_pos rfl] at hsm
        refine ⟨?_, ?_, ⟨fun _ => ⟨s.player_count, hsome, hph⟩, fun _ => hsm⟩,
          ?_, ?_, frame⟩
        · rw [hsm]
          constructor
          · intro h
            exact absurd h (by simp)
          · intro h
            exact absurd hex h
        · rw [hsm]
          constructor
          · intro h
            have := Except.error.inj h
            exact absurd (GameError.InvalidState.inj this).symm hmsg
          · rintro ⟨p, hp, hc⟩
            rw [hponly p hp] at hc
            rw [hph] at hc
            exact absurd hc (by simp)
        · rw [hsm]
          constructor
          · intro h
            exact absurd h (by simp)
          · rintro ⟨⟨p, hp, hc⟩, _⟩
            rw [hponly p hp] at hc
            rw [hph] at hc
            exact absurd hc (by simp)
        · rw [hsm]
          constructor
          · intro h
            exact absurd h (by simp)
          · rintro ⟨⟨p, hp, hc⟩, _⟩
            rw [hponly p hp] at hc
            rw [hph] at hc
            exact absurd hc (by simp)
    | waiting_for_moves =>
        rw [hph] at hsm
        simp only
          [if_neg (by simp : ¬ (Phase.waiting_for_moves = Phase.waiting_for_opponent)),
           if_neg (by simp : ¬ (Phase.waiting_for_moves = Phase.finished))] at hsm
        by_cases hdup :
            (db.moves.any (fun m => m.session_id == sid && m.player_id == pid)) = true
        · rw [if_pos hdup] at hsm
          have hme : moveExists db sid pid := moveExists_iff_any.mp hdup
          refine ⟨?_, ?_, ?_,
            ⟨fun _ => ⟨⟨s.player_count, hsome, hph⟩, hme⟩, fun _ => hsm⟩,
            ?_, frame⟩
          · rw [hsm]
            constructor
            · intro h
              exact absurd h (by simp)
            · intro h
              exact absurd hex h
          · rw [hsm]
            constructor
            · intro h
              exact absurd h (by simp)
            · rintro ⟨p, hp, hc⟩
              rw [hponly p hp] at hc
              rw [hph] at hc
              exact absurd hc (by simp)
          · rw [hsm]
            constructor
            · intro h
              exact absurd h (by simp)
            · rintro ⟨p, hp, hc⟩
              rw [hponly p hp] at hc
              rw [hph] at hc
              exact absurd hc (by simp)
          · rw [hsm]
            constructor
            · intro h
              exact absurd h (by simp)
            · rintro ⟨_, hnme⟩
              exact absurd hme hnme
        · rw [if_neg hdup] at hsm
          have hnme : ¬ moveExists db sid pid := fun hx =>
            hdup (moveExists_iff_any.mpr hx)
          refine ⟨?_, ?_, ?_, ?_,
            ⟨fun _ => ⟨⟨s.player_count, hsome, hph⟩, hnme⟩, fun _ => hsm⟩,
            frame⟩
          · rw [hsm]
            constructor
            · intro h
              exact absurd h (by simp)
            · intro h
              exact absurd hex h
          · rw [hsm]
            constructor
            · intro h
              exact absurd h (by simp)
            · rintro ⟨p, hp, hc⟩
              rw [hponly p hp] at hc
              rw [hph] at hc
              exact absurd hc (by simp)
          · rw [hsm]
            constructor
            · intro h
              exact absurd h (by simp)
            · rintro ⟨p, hp, hc⟩
              rw [hponly p hp] at hc
              rw [hph] at hc
              exact absurd hc (by simp)
          · rw [hsm]
            constructor
            · intro h
              exact absurd h (by simp)
            · rintro ⟨_, hme⟩
              exact absurd hme hnme

/-- Witness for C2: a successful submission into a two-player session. -/
theorem submit_move_preconditions_witness :
    save_move ⟨[⟨"s1", 2⟩], []⟩ "s1" "p1" "rock" =
      Except.ok ⟨[⟨"s1", 2⟩], [⟨"s1", "p1", "rock"⟩]⟩ :=
  ((submit_move_preconditions ⟨[⟨"s1", 2⟩], []⟩ "s1" "p1" "rock").2.2.2.2.1).mpr
    ⟨⟨2, rfl, rfl⟩, by simp [moveExists]⟩
